import Mathlib

/-!
Verification of the replay-buffer / training-loop behaviour of the
cfd_sureli repository (DQN, SAC, TD3 agents).

Scalars that the Python code handles as floating-point tensors are
modelled as rationals (`ℚ`); neural networks and their optimizer updates
are treated as opaque functions over an abstract parameter type, passed
in explicitly.  Randomness (batch index draws, exploration noise) is
externalised into explicit argument lists.
-/

set_option linter.unusedVariables false

/-- The five-field transition record `{state, action, reward, next_state, done}`
described by the spec's data model and pushed by the TD3/SAC training driver
(`commons/run_expe.py`, line 251). -/
structure Transition (σ α : Type) where
  state : σ
  action : α
  reward : ℚ
  next_state : σ
  done : Bool
deriving DecidableEq, Repr

/-- The four-field record actually supplied by the DQN training driver's push
call (`DQN/train.py`, line 94): `model.memory.push(state, action, reward,
next_state)` — the trailing done argument is commented out in the source. -/
structure DQNTransition (σ α : Type) where
  state : σ
  action : α
  reward : ℚ
  next_state : σ
deriving DecidableEq, Repr

/-- Modelled from the spec (the implementation `commons/utils.py` holding
`ReplayMemory` is not part of the provided sources; only its callers are):
"an ordered, fixed-capacity sequence of Transitions with a write cursor".
`memory` is the stored sequence and `position` the write cursor. -/
structure ReplayMemory (T : Type) where
  capacity : Nat
  memory : List T
  position : Nat
deriving DecidableEq, Repr

namespace ReplayMemory

/-- A freshly created buffer: no entries, cursor at slot 0. -/
def empty (T : Type) (cap : Nat) : ReplayMemory T :=
  { capacity := cap, memory := [], position := 0 }

/-- Modelled from the spec: "`push(transition)`: appends to the buffer.  If
not yet at capacity, length grows by one; otherwise overwrites the slot at
the current write cursor.  Cursor advances modulo capacity." -/
def push (b : ReplayMemory T) (x : T) : ReplayMemory T :=
  if b.memory.length < b.capacity then
    { b with memory := b.memory ++ [x], position := (b.position + 1) % b.capacity }
  else
    { b with memory := b.memory.set b.position x, position := (b.position + 1) % b.capacity }

/-- Perform a whole sequence of pushes, oldest first. -/
def pushAll (b : ReplayMemory T) (xs : List T) : ReplayMemory T :=
  xs.foldl push b

/-- `len()`: the current number of stored transitions. -/
def size (b : ReplayMemory T) : Nat :=
  b.memory.length

/-- Modelled from the spec: "`sample(k)` with `k <= len()` returns exactly k
transitions, each one of the stored entries"; the uniform random draw is
externalised into the index list `idxs` (one index per drawn transition, with
or without replacement per configuration). -/
def sample (b : ReplayMemory T) (idxs : List Nat) : List T :=
  idxs.filterMap (fun i => b.memory[i]?)

theorem pushAll_append (b : ReplayMemory T) (xs : List T) (x : T) :
    b.pushAll (xs ++ [x]) = (b.pushAll xs).push x := by
  simp [pushAll, List.foldl_append]

/-- The shape of the buffer contents after pushing the list `xs` into an
empty buffer of capacity `C`: the tail of the current lap of the cursor,
followed by the survivors of the previous lap. -/
def ringContents (C : Nat) (xs : List T) : List T :=
  xs.drop (xs.length - xs.length % C) ++
    (xs.take (xs.length - xs.length % C)).drop (xs.length - C)

theorem length_ringContents (C : Nat) (hC : 0 < C) (xs : List T) :
    (ringContents C xs).length = min xs.length C := by
  have hr : xs.length % C < C := Nat.mod_lt _ hC
  have hle : xs.length % C ≤ xs.length := Nat.mod_le _ _
  simp only [ringContents, List.length_append, List.length_drop, List.length_take]
  omega

theorem ringContents_of_le (C : Nat) (hC : 0 < C) (xs : List T)
    (h : xs.length ≤ C) : ringContents C xs = xs := by
  rcases Nat.lt_or_ge xs.length C with hlt | hge
  · have h1 : xs.length % C = xs.length := Nat.mod_eq_of_lt hlt
    simp [ringContents, h1, Nat.sub_eq_zero_of_le (le_of_lt hlt)]
  · have heq : xs.length = C := le_antisymm h hge
    simp only [ringContents, heq, Nat.mod_self, Nat.sub_zero, Nat.sub_self,
      List.drop_zero]
    rw [← heq, List.drop_length, List.take_length]
    simp

theorem set_at_append_length (l₁ l₂ : List T) (x : T) :
    (l₁ ++ l₂).set l₁.length x = l₁ ++ l₂.set 0 x := by
  induction l₁ with
  | nil => rfl
  | cons a l ih => simp [ih]

theorem set_zero_of_ne_nil (l : List T) (x : T) (h : l ≠ []) :
    l.set 0 x = x :: l.tail := by
  cases l with
  | nil => exact absurd rfl h
  | cons a t => rfl

theorem ringContents_set (C : Nat) (hC : 0 < C) (xs : List T) (x : T)
    (h : C ≤ xs.length) :
    (ringContents C xs).set (xs.length % C) x = ringContents C (xs ++ [x]) := by
  have hr : xs.length % C < C := Nat.mod_lt _ hC
  have hrle : xs.length % C ≤ xs.length := Nat.mod_le _ _
  have hmle : xs.length - xs.length % C ≤ xs.length := Nat.sub_le _ _
  have hA : (xs.drop (xs.length - xs.length % C)).length = xs.length % C := by
    rw [List.length_drop]; omega
  have hCm : xs.length - C ≤ xs.length - xs.length % C := by omega
  have hBlen :
      ((xs.take (xs.length - xs.length % C)).drop (xs.length - C)).length
        = C - xs.length % C := by
    rw [List.length_drop, List.length_take]; omega
  have hBne : (xs.take (xs.length - xs.length % C)).drop (xs.length - C) ≠ [] := by
    intro hnil
    rw [hnil] at hBlen
    simp at hBlen
    omega
  have hset := set_at_append_length (xs.drop (xs.length - xs.length % C))
      ((xs.take (xs.length - xs.length % C)).drop (xs.length - C)) x
  rw [hA] at hset
  rw [ringContents, hset, set_zero_of_ne_nil _ _ hBne, List.tail_drop]
  rcases Nat.lt_or_ge (xs.length % C + 1) C with hlt | hge
  · -- the cursor has not wrapped: same lap, one more recent element
    have hpos : (xs.length + 1) % C = xs.length % C + 1 := by
      rw [← Nat.mod_add_mod, Nat.mod_eq_of_lt hlt]
    have hm' : xs.length + 1 - (xs.length % C + 1) = xs.length - xs.length % C := by
      omega
    have hdrop :
        (xs ++ [x]).drop (xs.length - xs.length % C)
          = xs.drop (xs.length - xs.length % C) ++ [x] :=
      List.drop_append_of_le_length hmle
    have htake :
        (xs ++ [x]).take (xs.length - xs.length % C)
          = xs.take (xs.length - xs.length % C) :=
      List.take_append_of_le_length hmle
    have hsub : xs.length + 1 - C = xs.length - C + 1 := by omega
    simp only [ringContents, List.length_append, List.length_singleton, hpos,
      hm', hdrop, htake, hsub, List.append_assoc, List.singleton_append]
  · -- the cursor wraps to slot 0: the oldest lap is fully overwritten
    have heq : xs.length % C + 1 = C := le_antisymm (by omega) hge
    have hpos : (xs.length + 1) % C = 0 := by
      rw [← Nat.mod_add_mod, heq, Nat.mod_self]
    have hBnil :
        ((xs.take (xs.length - xs.length % C)).drop (xs.length - C + 1)) = [] := by
      apply List.eq_nil_of_length_eq_zero
      rw [List.length_drop, List.length_take]
      omega
    have hm : xs.length - xs.length % C = xs.length + 1 - C := by omega
    have hlen' : (xs ++ [x]).length = xs.length + 1 := by simp
    have hdropC : xs.length + 1 - C ≤ xs.length := by omega
    simp only [ringContents, hlen', hpos, Nat.sub_zero, hBnil, List.append_nil]
    rw [← hlen', List.drop_length, List.take_length, List.nil_append,
      hlen', List.drop_append_of_le_length hdropC, hm]

theorem push_of_lt (b : ReplayMemory T) (x : T) (h : b.memory.length < b.capacity) :
    b.push x = { b with memory := b.memory ++ [x],
                        position := (b.position + 1) % b.capacity } := by
  rw [push, if_pos h]

theorem push_of_ge (b : ReplayMemory T) (x : T)
    (h : ¬ b.memory.length < b.capacity) :
    b.push x = { b with memory := b.memory.set b.position x,
                        position := (b.position + 1) % b.capacity } := by
  rw [push, if_neg h]

theorem ring_invariant (C : Nat) (hC : 0 < C) (xs : List T) :
    ((empty T C).pushAll xs).capacity = C ∧
    ((empty T C).pushAll xs).position = xs.length % C ∧
    ((empty T C).pushAll xs).memory = ringContents C xs := by
  induction xs using List.reverseRecOn with
  | nil =>
      refine ⟨rfl, ?_, ?_⟩
      · simp [empty, pushAll]
      · simp [empty, pushAll, ringContents]
  | append_singleton xs x ih =>
      obtain ⟨hcap, hpos, hmem⟩ := ih
      rw [pushAll_append]
      rcases Nat.lt_or_ge xs.length C with hlt | hge
      · -- growing phase: the buffer is not yet at capacity
        have hmem' : ((empty T C).pushAll xs).memory = xs := by
          rw [hmem, ringContents_of_le C hC xs (le_of_lt hlt)]
        have hcond : ((empty T C).pushAll xs).memory.length
            < ((empty T C).pushAll xs).capacity := by
          rw [hmem', hcap]; exact hlt
        rw [push_of_lt _ _ hcond]
        refine ⟨hcap, ?_, ?_⟩
        · show (((empty T C).pushAll xs).position + 1)
              % ((empty T C).pushAll xs).capacity = (xs ++ [x]).length % C
          rw [hpos, hcap, List.length_append, List.length_singleton]
          exact Nat.mod_add_mod xs.length C 1
        · show ((empty T C).pushAll xs).memory ++ [x] = ringContents C (xs ++ [x])
          rw [hmem', ringContents_of_le C hC (xs ++ [x]) (by simp; omega)]
      · -- full phase: overwrite at the cursor
        have hlen : ((empty T C).pushAll xs).memory.length = C := by
          rw [hmem, length_ringContents C hC xs]; omega
        have hcond : ¬ (((empty T C).pushAll xs).memory.length
            < ((empty T C).pushAll xs).capacity) := by
          rw [hlen, hcap]; omega
        rw [push_of_ge _ _ hcond]
        refine ⟨hcap, ?_, ?_⟩
        · show (((empty T C).pushAll xs).position + 1)
              % ((empty T C).pushAll xs).capacity = (xs ++ [x]).length % C
          rw [hpos, hcap, List.length_append, List.length_singleton]
          exact Nat.mod_add_mod xs.length C 1
        · show (((empty T C).pushAll xs).memory).set
              ((empty T C).pushAll xs).position x = ringContents C (xs ++ [x])
          rw [hmem, hpos]
          exact ringContents_set C hC xs x hge

theorem ring_size (C : Nat) (hC : 0 < C) (xs : List T) :
    ((empty T C).pushAll xs).size = min xs.length C := by
  rw [size, (ring_invariant C hC xs).2.2, length_ringContents C hC xs]

theorem ringContents_perm_lastC (C : Nat) (hC : 0 < C) (xs : List T)
    (h : C ≤ xs.length) :
    (ringContents C xs).Perm (xs.drop (xs.length - C)) := by
  have hmle : xs.length - xs.length % C ≤ xs.length := Nat.sub_le _ _
  have hCm : xs.length - C ≤ xs.length - xs.length % C := by
    have := Nat.mod_lt xs.length hC; omega
  have hr : xs.length % C < C := Nat.mod_lt _ hC
  have hsplit : xs.drop (xs.length - C)
      = (xs.take (xs.length - xs.length % C)).drop (xs.length - C) ++
          xs.drop (xs.length - xs.length % C) :=
    calc xs.drop (xs.length - C)
        = (xs.take (xs.length - xs.length % C) ++
            xs.drop (xs.length - xs.length % C)).drop (xs.length - C) := by
          rw [List.take_append_drop]
      _ = (xs.take (xs.length - xs.length % C)).drop (xs.length - C) ++
            xs.drop (xs.length - xs.length % C) := by
          apply List.drop_append_of_le_length
          rw [List.length_take]; omega
  rw [hsplit, ringContents]
  exact List.perm_append_comm

theorem sample_length (b : ReplayMemory T) (idxs : List Nat)
    (h : ∀ i ∈ idxs, i < b.size) : (b.sample idxs).length = idxs.length := by
  induction idxs with
  | nil => rfl
  | cons i is ih =>
      have hi : i < b.memory.length := h i (List.mem_cons_self i is)
      have hrest : ∀ j ∈ is, j < b.size := fun j hj => h j (List.mem_cons_of_mem i hj)
      simp only [sample, List.filterMap_cons, List.getElem?_eq_getElem hi,
        List.length_cons]
      have := ih hrest
      simp only [sample] at this
      omega

theorem sample_mem (b : ReplayMemory T) (idxs : List Nat) (t : T)
    (ht : t ∈ b.sample idxs) : t ∈ b.memory := by
  simp only [sample, List.mem_filterMap] at ht
  obtain ⟨i, _, hi⟩ := ht
  rw [List.getElem?_eq_some] at hi
  obtain ⟨hlt, rfl⟩ := hi
  exact List.getElem_mem _

end ReplayMemory

/-- C2: for every sequence of pushes into a replay buffer created with
capacity C, `len()` never exceeds C; for the first C pushes `len()` equals the
number of pushes performed, and after more than C pushes `len()` stays at C
and the buffer contains exactly the C most recently pushed transitions, with
the oldest overwritten first (ring-buffer semantics). -/
theorem c2_ring_buffer_semantics {T : Type} (C : Nat) (xs : List T) (hC : 0 < C) :
    ((ReplayMemory.empty T C).pushAll xs).size ≤ C ∧
    (xs.length ≤ C → ((ReplayMemory.empty T C).pushAll xs).size = xs.length ∧
      ((ReplayMemory.empty T C).pushAll xs).memory = xs) ∧
    (C ≤ xs.length → ((ReplayMemory.empty T C).pushAll xs).size = C ∧
      ((ReplayMemory.empty T C).pushAll xs).memory.Perm
        (xs.drop (xs.length - C))) := by
  refine ⟨?_, ?_, ?_⟩
  · rw [ReplayMemory.ring_size C hC xs]; omega
  · intro h
    refine ⟨by rw [ReplayMemory.ring_size C hC xs]; omega, ?_⟩
    rw [(ReplayMemory.ring_invariant C hC xs).2.2,
      ReplayMemory.ringContents_of_le C hC xs h]
  · intro h
    refine ⟨by rw [ReplayMemory.ring_size C hC xs]; omega, ?_⟩
    rw [(ReplayMemory.ring_invariant C hC xs).2.2]
    exact ReplayMemory.ringContents_perm_lastC C hC xs h

/-- Closed witness for C2: capacity 2, five pushes; the buffer ends at size 2
holding a permutation of the last two pushed values. -/
theorem c2_ring_buffer_semantics_witness :
    (0 : Nat) < 2 ∧
    ((ReplayMemory.empty ℕ 2).pushAll [10, 20, 30, 40, 50]).size ≤ 2 ∧
    ((ReplayMemory.empty ℕ 2).pushAll [10, 20, 30, 40, 50]).size = 2 ∧
    ((ReplayMemory.empty ℕ 2).pushAll [10, 20, 30, 40, 50]).memory.Perm
      ([10, 20, 30, 40, 50].drop 3) := by
  have h := c2_ring_buffer_semantics 2 [10, 20, 30, 40, 50] (by decide)
  have h2 := h.2.2 (by decide)
  exact ⟨by decide, h.1, h2.1, h2.2⟩

/-- C5: for every k with k ≤ len(), sample(k) returns exactly k transitions,
and each returned transition is one of the entries currently stored in the
buffer; no entry outside the buffer's current contents is ever returned.
The k uniform random draws are externalised into the index list `idxs`
(one stored slot per draw, so k = idxs.length and each index is in range). -/
theorem c5_sample_size_and_membership {T : Type} (b : ReplayMemory T)
    (idxs : List Nat) (hvalid : ∀ i ∈ idxs, i < b.size) :
    (b.sample idxs).length = idxs.length ∧
    ∀ t ∈ b.sample idxs, t ∈ b.memory :=
  ⟨ReplayMemory.sample_length b idxs hvalid,
   fun t ht => ReplayMemory.sample_mem b idxs t ht⟩

/-- Closed witness for C5: a two-entry buffer sampled three times (draw with
replacement) yields three results, all stored entries. -/
theorem c5_sample_size_and_membership_witness :
    ((⟨2, [5, 7], 0⟩ : ReplayMemory ℕ).sample [1, 0, 1]).length = 3 ∧
    ∀ t ∈ (⟨2, [5, 7], 0⟩ : ReplayMemory ℕ).sample [1, 0, 1],
      t ∈ (⟨2, [5, 7], 0⟩ : ReplayMemory ℕ).memory := by
  have h := c5_sample_size_and_membership (⟨2, [5, 7], 0⟩ : ReplayMemory ℕ)
    [1, 0, 1] (by decide)
  exact ⟨h.1, h.2⟩

/-- A raw single-step transition entering the n-step window.  Modelled from
the spec: the n-step extension consumes raw transitions carrying an episode
termination flag ("done=True at any point inside the window"). -/
structure RawTransition (σ α : Type) where
  state : σ
  action : α
  reward : ℚ
  next_state : σ
  done : Bool
deriving DecidableEq, Repr

/-- The discounted n-step return of a window: `sum_{i} gamma^i * reward_i`,
modelled from the spec's formula. -/
def nstepReturn (g : ℚ) (w : List (RawTransition σ α)) : ℚ :=
  ((w.zip (List.range w.length)).map (fun p => g ^ p.2 * p.1.reward)).sum

/-- Modelled from the spec (the implementation `DQNReplayMemory` in
commons/utils.py is not under src/; DQN/model.py line 80 constructs it with
a capacity, an n-step window size and a discount): the main aggregated
buffer together with the bounded pending window of raw transitions. -/
structure DQNReplayMemory (σ α : Type) where
  buffer : ReplayMemory (Transition σ α)
  nsteps : List (RawTransition σ α)
  n : Nat
  gamma : ℚ

namespace DQNReplayMemory

/-- The aggregated transition flushed from the pending window extended with
the incoming raw transition `t`: discounted window return, the state (and
action) at the window's head, and the next_state/done of its tail. -/
def aggregated (m : DQNReplayMemory σ α) (t : RawTransition σ α) :
    Transition σ α :=
  { state := (m.nsteps.headD t).state
    action := (m.nsteps.headD t).action
    reward := nstepReturn m.gamma (m.nsteps ++ [t])
    next_state := t.next_state
    done := t.done }

/-- Modelled from the spec: "on each new raw transition, if the window has n
entries, it computes a discounted n-step return ... combined with the state
at the window's head and the next_state at the window's tail, and pushes that
single aggregated Transition into the main buffer; the window then slides by
one.  Early termination (done=True at any point inside the window)
immediately aggregates an episode-incomplete transition using only the
rewards accumulated so far and flushes the window." -/
def push (m : DQNReplayMemory σ α) (t : RawTransition σ α) :
    DQNReplayMemory σ α :=
  let w := m.nsteps ++ [t]
  if t.done then
    { m with buffer := m.buffer.push (m.aggregated t), nsteps := [] }
  else if m.n ≤ w.length then
    { m with buffer := m.buffer.push (m.aggregated t), nsteps := w.drop 1 }
  else
    { m with nsteps := w }

/-- `len(self.memory)`: the number of aggregated transitions stored. -/
def size (m : DQNReplayMemory σ α) : Nat :=
  m.buffer.size

end DQNReplayMemory

/-- C6: with window size n=3 and discount g, three consecutive raw
transitions with rewards r0, r1, r2 (no termination) produce a single
aggregated transition in the main buffer whose reward is
r0 + g*r1 + g^2*r2, whose state is the state at step 0 and whose next_state
is the next_state at step 2 (the window then slides by one); and an episode
terminating (done=true) inside a partially filled window immediately flushes
an aggregated transition using only the rewards accumulated so far. -/
theorem c6_nstep_aggregation {σ α : Type} (B : ReplayMemory (Transition σ α))
    (g : ℚ) (t0 t1 t2 u0 u1 : RawTransition σ α)
    (h0 : t0.done = false) (h1 : t1.done = false) (h2 : t2.done = false)
    (hu0 : u0.done = false) (hu1 : u1.done = true) :
    (((({ buffer := B, nsteps := [], n := 3, gamma := g } :
          DQNReplayMemory σ α).push t0).push t1).push t2
      = { buffer := B.push
            { state := t0.state, action := t0.action,
              reward := t0.reward + g * t1.reward + g ^ 2 * t2.reward,
              next_state := t2.next_state, done := false },
          nsteps := [t1, t2], n := 3, gamma := g }) ∧
    ((({ buffer := B, nsteps := [], n := 3, gamma := g } :
          DQNReplayMemory σ α).push u0).push u1
      = { buffer := B.push
            { state := u0.state, action := u0.action,
              reward := u0.reward + g * u1.reward,
              next_state := u1.next_state, done := true },
          nsteps := [], n := 3, gamma := g }) := by
  constructor
  · simp only [DQNReplayMemory.push, DQNReplayMemory.aggregated, h0, h1, h2,
      Bool.false_eq_true, if_false, List.nil_append, List.length_cons,
      List.length_append, List.length_singleton, List.length_nil,
      List.cons_append, List.headD]
    norm_num
    have hret : nstepReturn g [t0, t1, t2]
        = t0.reward + g * t1.reward + g ^ 2 * t2.reward := by
      simp [nstepReturn, List.range_succ]
      ring
    rw [hret]
  · simp only [DQNReplayMemory.push, DQNReplayMemory.aggregated, hu0, hu1,
      Bool.false_eq_true, if_false, if_true, List.nil_append,
      List.length_singleton, List.cons_append, List.headD]
    norm_num
    have hret : nstepReturn g [u0, u1] = u0.reward + g * u1.reward := by
      simp [nstepReturn, List.range_succ]
    rw [hret]

/-- Closed witness for C6: with gamma = 1/2, rewards 1, 2, 4 aggregate to
1 + 1/2*2 + 1/4*4 = 3 carrying state 0 and next_state 3; a done=true raw
transition with rewards 1, 2 pending flushes reward 2 and empties the
window. -/
theorem c6_nstep_aggregation_witness :
    (((({ buffer := ReplayMemory.empty (Transition ℚ ℚ) 4, nsteps := [], n := 3,
          gamma := (1/2 : ℚ) } : DQNReplayMemory ℚ ℚ).push
          ⟨0, 0, 1, 1, false⟩).push ⟨1, 0, 2, 2, false⟩).push
          ⟨2, 0, 4, 3, false⟩).buffer.memory
        = [⟨0, 0, 3, 3, false⟩] ∧
    ((({ buffer := ReplayMemory.empty (Transition ℚ ℚ) 4, nsteps := [], n := 3,
          gamma := (1/2 : ℚ) } : DQNReplayMemory ℚ ℚ).push
          ⟨0, 0, 1, 1, false⟩).push ⟨1, 0, 2, 2, true⟩).nsteps = [] := by
  have h := c6_nstep_aggregation (ReplayMemory.empty (Transition ℚ ℚ) 4)
    (1/2) ⟨0, 0, 1, 1, false⟩ ⟨1, 0, 2, 2, false⟩ ⟨2, 0, 4, 3, false⟩
    ⟨0, 0, 1, 1, false⟩ ⟨1, 0, 2, 2, true⟩ rfl rfl rfl rfl rfl
  constructor
  · rw [h.1]
    norm_num [ReplayMemory.push, ReplayMemory.empty]
  · rw [h.2]

/-- Arithmetic mean as computed by `.mean()` on a batch tensor. -/
def listMean (l : List ℚ) : ℚ :=
  l.sum / l.length

/-- `F.mse_loss`: mean of elementwise squared differences. -/
def mseLoss (xs ys : List ℚ) : ℚ :=
  listMean (List.zipWith (fun a b => (a - b) ^ 2) xs ys)

/-- `torch.clamp(x, lo, hi)`. -/
def clampQ (lo hi x : ℚ) : ℚ :=
  max lo (min hi x)

/-- Per-element TD3 critic target, from TD3/model.py line 67:
`target_Q = rewards + done*self.config["GAMMA"]*target_Q`
(where the incoming `target_Q` is `min(target_Qa, target_Qb)`). -/
def td3TargetQ (gamma r d q : ℚ) : ℚ :=
  r + d * gamma * q

/-- Per-element SAC critic target, from SAC/model.py:
`target_Q = rewards + (1 - done) * self.config["GAMMA"] * next_V`. -/
def sacTargetQ (gamma r d v : ℚ) : ℚ :=
  r + (1 - d) * gamma * v

/-- The opaque network functions and configuration entries TD3's
`Model.optimize` interacts with: forward passes, the optimizer's gradient
step (`Critic.update`/`Actor.update`) and the soft target update
(`update_targets(target, source, tau)`). -/
structure TD3Nets (σ P : Type) where
  batchSize : Nat
  gamma : ℚ
  tau : ℚ
  updateClip : ℚ
  lowBound : ℚ
  highBound : ℚ
  actorForward : P → σ → ℚ
  criticForward : P → σ → ℚ → ℚ
  gradStep : P → ℚ → P
  softUpdate : P → P → ℚ → P

/-- The mutable state of TD3's `Model`: replay memory, the update-step
counter, and the six parameter vectors. -/
structure TD3State (σ P : Type) where
  memory : ReplayMemory (Transition σ ℚ)
  update_step : Nat
  actor : P
  actorTarget : P
  criticA : P
  criticATarget : P
  criticB : P
  criticBTarget : P

/-- TD3 `Model.optimize` (TD3/model.py lines 34-90).  The batch draw and the
exploration noise are externalised into `idxs` and `noise`.  Returns the new
model state and the pair `(loss_actor, loss_critic_A)` the Python method
returns (None, None when the buffer is under-filled). -/
def td3Optimize (nets : TD3Nets σ P) (idxs : List Nat) (noise : List ℚ)
    (st : TD3State σ P) : TD3State σ P × Option ℚ × Option ℚ :=
  if st.memory.size < nets.batchSize then (st, none, none)
  else
    let update_step := st.update_step + 1
    let transitions := st.memory.sample idxs
    let states := transitions.map Transition.state
    let actions := transitions.map Transition.action
    let rewards := transitions.map Transition.reward
    let next_states := transitions.map Transition.next_state
    let dones := transitions.map (fun t => if t.done then (1 : ℚ) else 0)
    let current_Qa := List.zipWith (nets.criticForward st.criticA) states actions
    let current_Qb := List.zipWith (nets.criticForward st.criticB) states actions
    let noiseClamped := noise.map (clampQ (-nets.updateClip) nets.updateClip)
    let next_actions := List.zipWith
      (fun s z => clampQ nets.lowBound nets.highBound
        (nets.actorForward st.actorTarget s + z))
      next_states noiseClamped
    let target_Qa := List.zipWith (nets.criticForward st.criticATarget)
      next_states next_actions
    let target_Qb := List.zipWith (nets.criticForward st.criticBTarget)
      next_states next_actions
    let target_Qmin := List.zipWith min target_Qa target_Qb
    let target_Q := List.zipWith (fun rd q => td3TargetQ nets.gamma rd.1 rd.2 q)
      (rewards.zip dones) target_Qmin
    let loss_critic_A := mseLoss current_Qa target_Q
    let loss_critic_B := mseLoss current_Qb target_Q
    let criticA := nets.gradStep st.criticA loss_critic_A
    let criticB := nets.gradStep st.criticB loss_critic_B
    if update_step % 2 = 0 then
      let loss_actor := - listMean (List.zipWith (nets.criticForward criticA)
        states (states.map (nets.actorForward st.actor)))
      let actor := nets.gradStep st.actor loss_actor
      ({ memory := st.memory, update_step := update_step,
         actor := actor,
         actorTarget := nets.softUpdate st.actorTarget actor nets.tau,
         criticA := criticA,
         criticATarget := nets.softUpdate st.criticATarget criticA nets.tau,
         criticB := criticB,
         criticBTarget := nets.softUpdate st.criticBTarget criticB nets.tau },
       some loss_actor, some loss_critic_A)
    else
      ({ st with
          update_step := update_step
          criticA := criticA
          criticB := criticB },
       none, some loss_critic_A)

/-- Index of the (first) maximal entry, `tensor.max(dim)[1]`. -/
def argmaxIdx (l : List ℚ) : Nat :=
  (List.range l.length).foldl
    (fun best i => if l.getD best 0 < l.getD i 0 then i else best) 0

/-- Maximal entry of a non-empty Q-value row, `tensor.max(dim)[0]`. -/
def qMax (l : List ℚ) : ℚ :=
  l.foldr max (l.headD 0)

/-- `F.smooth_l1_loss` on one element pair (Huber loss, beta = 1). -/
def smoothL1 (a b : ℚ) : ℚ :=
  if |a - b| < 1 then (a - b) ^ 2 / 2 else |a - b| - 1 / 2

/-- The opaque network functions and configuration entries DQN's
`Model.optimize_model` interacts with. `forward` maps parameters and a state
to the row of Q-values over the discrete action set; `gradStep` is
`Agent.update` (backward + optimizer step + scheduler step). -/
structure DQNNets (σ P : Type) where
  batchSize : Nat
  gamma : ℚ
  nstep : Nat
  doubleDQN : Bool
  forward : P → σ → List ℚ
  gradStep : P → ℚ → P

/-- The mutable state of DQN's `Model`: the n-step replay memory, the online
and target network parameters and the LR-scheduler step counter. -/
structure DQNModelState (σ P : Type) where
  memory : DQNReplayMemory σ Nat
  nn : P
  target_nn : P
  schedSteps : Nat

/-- DQN `Model.optimize_model` (DQN/model.py lines 114-167).  The Python
method returns None in all cases; the second component here exposes the
computed loss (none on the warm-up gate, where nothing is sampled and
nothing is updated). -/
def dqnOptimizeModel (nets : DQNNets σ P) (idxs : List Nat)
    (st : DQNModelState σ P) : DQNModelState σ P × Option ℚ :=
  if st.memory.size < nets.batchSize then (st, none)
  else
    let transitions := st.memory.buffer.sample idxs
    let state_action_values := transitions.map
      (fun t => (nets.forward st.nn t.state).getD t.action 0)
    let next_state_values := transitions.map (fun t =>
      if nets.doubleDQN then
        (nets.forward st.target_nn t.next_state).getD
          (argmaxIdx (nets.forward st.nn t.next_state)) 0
      else
        qMax (nets.forward st.target_nn t.next_state))
    let expected := List.zipWith
      (fun nsv t => nsv * nets.gamma ^ nets.nstep + t.reward)
      next_state_values transitions
    let loss := listMean (List.zipWith smoothL1 state_action_values expected)
    ({ st with
        nn := nets.gradStep st.nn loss
        schedSteps := st.schedSteps + 1 }, some loss)

/-- C1: while the replay buffer holds fewer than the configured batch size of
transitions, the optimization step is skipped as a precondition gate: both
TD3's `optimize` (TD3/model.py lines 34-37) and DQN's `optimize_model`
(DQN/model.py lines 114-116) return immediately with no result, without
sampling the buffer and without any gradient update, leaving the whole model
state (networks, targets, counters, memory) unchanged. -/
theorem c1_warmup_gate_skips_update {σ P τ Q : Type}
    (tnets : TD3Nets σ P) (idxs : List Nat) (noise : List ℚ)
    (tst : TD3State σ P) (h1 : tst.memory.size < tnets.batchSize)
    (dnets : DQNNets τ Q) (didxs : List Nat) (dst : DQNModelState τ Q)
    (h2 : dst.memory.size < dnets.batchSize) :
    td3Optimize tnets idxs noise tst = (tst, none, none) ∧
    dqnOptimizeModel dnets didxs dst = (dst, none) := by
  constructor
  · rw [td3Optimize, if_pos h1]
  · rw [dqnOptimizeModel, if_pos h2]

/-- A concrete TD3 network/configuration bundle used by witnesses. -/
def td3NetsW : TD3Nets ℚ ℚ :=
  { batchSize := 2, gamma := 99/100, tau := 1/100, updateClip := 1/2,
    lowBound := -1, highBound := 1,
    actorForward := fun p s => p + s,
    criticForward := fun p s a => p + s + a,
    gradStep := fun p l => p + l,
    softUpdate := fun t s tau => t * (1 - tau) + s * tau }

/-- A concrete DQN network/configuration bundle used by witnesses. -/
def dqnNetsW : DQNNets ℚ ℚ :=
  { batchSize := 2, gamma := 99/100, nstep := 3, doubleDQN := false,
    forward := fun p s => [p + s, p - s],
    gradStep := fun p l => p + l }

/-- A TD3 model state with a single stored transition, under-filled for
batch size 2. -/
def td3StateW : TD3State ℚ ℚ :=
  { memory := ⟨100, [⟨0, 0, 1, 1, false⟩], 1⟩, update_step := 0,
    actor := 1, actorTarget := 2, criticA := 3, criticATarget := 4,
    criticB := 5, criticBTarget := 6 }

/-- A DQN model state with an empty aggregated buffer. -/
def dqnStateW : DQNModelState ℚ ℚ :=
  { memory := ⟨ReplayMemory.empty (Transition ℚ Nat) 100, [], 3, 99/100⟩,
    nn := 1, target_nn := 2, schedSteps := 0 }

/-- Closed witness for C1: with one stored transition and batch size two,
both optimizers return their state unchanged with no result. -/
theorem c1_warmup_gate_skips_update_witness :
    td3Optimize td3NetsW [0] [0] td3StateW = (td3StateW, none, none) ∧
    dqnOptimizeModel dqnNetsW [0] dqnStateW = (dqnStateW, none) :=
  c1_warmup_gate_skips_update td3NetsW [0] [0] td3StateW (by decide)
    dqnNetsW [0] dqnStateW (by decide)

/-- C3: the TD3 critic target is `rewards + done * GAMMA * min(Qa, Qb)`: the
discounted bootstrap term contributes exactly for transitions whose stored
done flag is nonzero (for done = 0 the target is the reward alone, and for
done ≠ 0 with a nonzero discounted minimum the target differs from the
reward), which is the opposite termination masking from SAC's
`rewards + (1 - done) * GAMMA * next_V`. -/
theorem c3_td3_done_masking_opposite_of_sac (gamma r qa qb v d : ℚ)
    (hd : d ≠ 0) (hq : gamma * min qa qb ≠ 0) :
    td3TargetQ gamma r 0 (min qa qb) = r ∧
    td3TargetQ gamma r d (min qa qb) ≠ r ∧
    sacTargetQ gamma r 0 v = r + gamma * v ∧
    sacTargetQ gamma r 1 v = r ∧
    (∀ d' : ℚ, td3TargetQ gamma r d' (min qa qb)
      = sacTargetQ gamma r (1 - d') (min qa qb)) := by
  refine ⟨by simp only [td3TargetQ]; ring, ?_,
    by simp only [sacTargetQ]; ring,
    by simp only [sacTargetQ]; ring,
    fun d' => by simp only [td3TargetQ, sacTargetQ]; ring⟩
  have hne : d * gamma * min qa qb ≠ 0 := by
    rw [mul_assoc]
    exact mul_ne_zero hd hq
  simp only [td3TargetQ]
  intro hcontra
  exact hne (by linarith)

/-- Closed witness for C3 at gamma = 1/2, reward 10, Q-minimum 4, done = 1:
the TD3 target keeps the bootstrap exactly when done is nonzero, SAC's does
the opposite. -/
theorem c3_td3_done_masking_opposite_of_sac_witness :
    td3TargetQ (1/2) 10 0 (min 4 6) = 10 ∧
    td3TargetQ (1/2) 10 1 (min 4 6) ≠ 10 ∧
    sacTargetQ (1/2) 10 0 7 = 10 + (1/2) * 7 ∧
    sacTargetQ (1/2) 10 1 7 = 10 ∧
    td3TargetQ (1/2) 10 1 (min 4 6) = sacTargetQ (1/2) 10 (1 - 1) (min 4 6) := by
  have h := c3_td3_done_masking_opposite_of_sac (1/2) 10 4 6 7 1
    (by norm_num) (by norm_num)
  exact ⟨h.1, h.2.1, h.2.2.1, h.2.2.2.1, h.2.2.2.2 1⟩

/-- C9: TD3's `optimize` updates the actor and the actor/critic target
networks only on every second non-skipped call (when the incremented
update_step counter is even, TD3/model.py line 77); on odd-numbered calls
the actor parameters and all three target-network parameters are unchanged
and the returned actor loss is None. -/
theorem c9_td3_actor_update_every_second_call {σ P : Type}
    (nets : TD3Nets σ P) (idxs : List Nat) (noise : List ℚ)
    (st : TD3State σ P) (hlen : ¬ st.memory.size < nets.batchSize) :
    ((st.update_step + 1) % 2 = 1 →
      (td3Optimize nets idxs noise st).1.actor = st.actor ∧
      (td3Optimize nets idxs noise st).1.actorTarget = st.actorTarget ∧
      (td3Optimize nets idxs noise st).1.criticATarget = st.criticATarget ∧
      (td3Optimize nets idxs noise st).1.criticBTarget = st.criticBTarget ∧
      (td3Optimize nets idxs noise st).2.1 = none) ∧
    ((st.update_step + 1) % 2 = 0 →
      ∃ l, (td3Optimize nets idxs noise st).2.1 = some l ∧
        (td3Optimize nets idxs noise st).1.actor = nets.gradStep st.actor l) := by
  constructor
  · intro hodd
    have hcond : ¬ (st.update_step + 1) % 2 = 0 := by omega
    simp only [td3Optimize, if_neg hlen, if_neg hcond]
    exact ⟨trivial, trivial, trivial, trivial, trivial⟩
  · intro heven
    simp only [td3Optimize, if_neg hlen, if_pos heven]
    exact ⟨_, rfl, rfl⟩

/-- A TD3 model state filled enough for batch size 2 (update_step = 0, so
the next call is odd-numbered). -/
def td3StateFullW : TD3State ℚ ℚ :=
  { memory := ⟨100, [⟨0, 0, 1, 1, false⟩, ⟨1, 1, 2, 2, true⟩], 2⟩,
    update_step := 0,
    actor := 1, actorTarget := 2, criticA := 3, criticATarget := 4,
    criticB := 5, criticBTarget := 6 }

/-- Closed witness for C9: at update_step = 0 the first non-skipped call is
odd-numbered, so actor and targets survive unchanged and the actor loss is
None; at update_step = 1 the call is even-numbered and an actor loss is
produced. -/
theorem c9_td3_actor_update_every_second_call_witness :
    ((td3Optimize td3NetsW [0, 1] [0, 0] td3StateFullW).1.actor
        = td3StateFullW.actor ∧
      (td3Optimize td3NetsW [0, 1] [0, 0] td3StateFullW).1.actorTarget
        = td3StateFullW.actorTarget ∧
      (td3Optimize td3NetsW [0, 1] [0, 0] td3StateFullW).2.1 = none) ∧
    (∃ l, (td3Optimize td3NetsW [0, 1] [0, 0]
        { td3StateFullW with update_step := 1 }).2.1 = some l) := by
  have h := c9_td3_actor_update_every_second_call td3NetsW [0, 1] [0, 0]
    td3StateFullW (by decide)
  have h2 := c9_td3_actor_update_every_second_call td3NetsW [0, 1] [0, 0]
    { td3StateFullW with update_step := 1 } (by decide)
  obtain ⟨ha, hb, _, _, he⟩ := h.1 (by decide)
  obtain ⟨l, hl, _⟩ := h2.2 (by decide)
  exact ⟨⟨ha, hb, he⟩, ⟨l, hl⟩⟩

/-- One environment interaction, `env.step(action)`: next state, reward and
episode-termination flag. -/
structure EnvStep (σ : Type) where
  next_state : σ
  reward : ℚ
  done : Bool

/-- The push performed by the DQN driver (DQN/train.py line 94):
`model.memory.push(state, action, reward, next_state)#, 1-int(done))`.
The done flag `d` is in scope at the call site but commented out of the
argument list, so the stored record has four fields and does not depend
on `d`. -/
def dqnPushRecord {σ α : Type} (s : σ) (a : α) (r : ℚ) (ns : σ) (d : Bool) :
    DQNTransition σ α :=
  { state := s, action := a, reward := r, next_state := ns }

/-- The push performed by the TD3/SAC driver (commons/run_expe.py line 251):
`model.memory.push(state, action, reward, next_state, done)` — all five
fields supplied. -/
def runExpePushRecord {σ α : Type} (s : σ) (a : α) (r : ℚ) (ns : σ)
    (d : Bool) : Transition σ α :=
  { state := s, action := a, reward := r, next_state := ns, done := d }

/-- The per-episode loop state of the DQN driver (DQN/train.py lines 74-78),
with the list of records pushed so far and an instrumentation flag
`forcedDone` recording whether the force-termination branch at lines 90-91
ever fired. -/
structure DQNLoopState (σ : Type) where
  state : σ
  step : Nat
  done : Bool
  current_reward : ℚ
  pushed : List (DQNTransition σ Nat)
  forcedDone : Bool

/-- One iteration of the DQN episode loop body (DQN/train.py lines 82-100):
act, step the environment, accumulate reward, run the
`if not done and step == MAX_STEPS: done = True` branch, push the (4-field)
transition, advance the state and the step counter. -/
def dqnLoopBody {σ : Type} (maxSteps : Nat) (policy : σ → Nat)
    (env : σ → Nat → EnvStep σ) (ls : DQNLoopState σ) : DQNLoopState σ :=
  let action := policy ls.state
  let e := env ls.state action
  let fired := !e.done && decide (ls.step = maxSteps)
  let done := e.done || fired
  { state := e.next_state
    step := ls.step + 1
    done := done
    current_reward := ls.current_reward + e.reward
    pushed := ls.pushed ++ [dqnPushRecord ls.state action e.reward e.next_state done]
    forcedDone := ls.forcedDone || fired }

/-- The DQN episode loop `while not done and step < MAX_STEPS` (DQN/train.py
line 80), fuel-bounded. -/
def dqnRunLoop {σ : Type} (maxSteps : Nat) (policy : σ → Nat)
    (env : σ → Nat → EnvStep σ) (fuel : Nat) (ls : DQNLoopState σ) :
    DQNLoopState σ :=
  match fuel with
  | 0 => ls
  | fuel + 1 =>
      if !ls.done && decide (ls.step < maxSteps) then
        dqnRunLoop maxSteps policy env fuel (dqnLoopBody maxSteps policy env ls)
      else ls

/-- The loop state at episode start (DQN/train.py lines 74-78). -/
def dqnEpisodeInit {σ : Type} (s0 : σ) : DQNLoopState σ :=
  { state := s0, step := 0, done := false, current_reward := 0,
    pushed := [], forcedDone := false }

theorem dqnRunLoop_forcedDone {σ : Type} (maxSteps : Nat) (policy : σ → Nat)
    (env : σ → Nat → EnvStep σ) (fuel : Nat) (ls : DQNLoopState σ)
    (h : ls.forcedDone = false) :
    (dqnRunLoop maxSteps policy env fuel ls).forcedDone = false := by
  induction fuel generalizing ls with
  | zero => simpa [dqnRunLoop] using h
  | succ fuel ih =>
      rw [dqnRunLoop]
      by_cases hc : (!ls.done && decide (ls.step < maxSteps)) = true
      · rw [if_pos hc]
        apply ih
        have hlt : ls.step < maxSteps :=
          of_decide_eq_true (Bool.and_elim_right hc)
        have hne : decide (ls.step = maxSteps) = false :=
          decide_eq_false (Nat.ne_of_lt hlt)
        simp [dqnLoopBody, h, hne]
      · rw [if_neg hc]
        exact h

/-- C10: the force-termination branch in the DQN episode loop
(`if not done and step == MAX_STEPS: done = True`, DQN/train.py lines 90-91)
is unreachable: the loop guard `step < MAX_STEPS` still holds at the check
(step is incremented only afterwards), so for every policy, environment,
episode length and fuel the branch never fires. -/
theorem c10_force_done_branch_unreachable {σ : Type} (maxSteps : Nat)
    (policy : σ → Nat) (env : σ → Nat → EnvStep σ) (fuel : Nat) (s0 : σ) :
    (dqnRunLoop maxSteps policy env fuel (dqnEpisodeInit s0)).forcedDone
      = false :=
  dqnRunLoop_forcedDone maxSteps policy env fuel _ rfl

/-- Counterexample to C4: the record the DQN driver stores is identical
whether the episode ended or not — the done flag is not supplied with the
push (DQN/train.py line 94) — while the TD3/SAC driver's stored record does
distinguish the two. -/
theorem c4_counterexample_dqn_push_drops_done :
    dqnPushRecord (0 : ℚ) (0 : Nat) 1 2 true
      = dqnPushRecord (0 : ℚ) (0 : Nat) 1 2 false ∧
    runExpePushRecord (0 : ℚ) (0 : ℚ) 1 2 true
      ≠ runExpePushRecord (0 : ℚ) (0 : ℚ) 1 2 false :=
  ⟨rfl, by decide⟩

/-- C4 (amended): the TD3/SAC driver (commons/run_expe.py line 251) stores
the five-field record {state, action, reward, next_state, done} with the
done flag it supplies; the DQN driver (DQN/train.py line 94) stores only the
four fields (state, action, reward, next_state), independent of the done
flag in scope. -/
theorem c4_push_record_fields {σ α : Type} (s : σ) (a : α) (r : ℚ) (ns : σ)
    (d d' : Bool) :
    (runExpePushRecord s a r ns d).state = s ∧
    (runExpePushRecord s a r ns d).action = a ∧
    (runExpePushRecord s a r ns d).reward = r ∧
    (runExpePushRecord s a r ns d).next_state = ns ∧
    (runExpePushRecord s a r ns d).done = d ∧
    dqnPushRecord s a r ns d = dqnPushRecord s a r ns d' :=
  ⟨rfl, rfl, rfl, rfl, rfl, rfl⟩

/-- The driver-level effects relevant to checkpointing and teardown. -/
inductive DriverEv where
  | save
  | envClose
  | printArrays
  | plotOutput
  | finishCFD
  | loopWork (i : Nat)
deriving DecidableEq, Repr

/-- The effects produced inside the `try` block by the episode loop:
`loopEvents i` are episode i's effects (periodic saves/evals included); a
KeyboardInterrupt at episode k truncates the loop there. -/
def loopTrace (loopEvents : Nat → List DriverEv) (maxEpisodes : Nat)
    (interrupt : Option Nat) : List DriverEv :=
  match interrupt with
  | none => (List.range maxEpisodes).flatMap loopEvents
  | some k => (List.range (min k maxEpisodes)).flatMap loopEvents

/-- Python's `try: <body> / except KeyboardInterrupt: pass / finally: <fin>`
at the effect-trace level: the body's effects happen up to the possible
interrupt, the handler swallows the interrupt adding nothing, and the
finally-block effects run on both exit paths. -/
def tryExceptKIFinally (bodyEvents finEvents : List DriverEv) :
    List DriverEv :=
  bodyEvents ++ finEvents

/-- DQN `train()` (DQN/train.py lines 69-114): episode loop inside try,
`except KeyboardInterrupt: pass`, `finally: model.save()`. -/
def dqnTrainTrace (loopEvents : Nat → List DriverEv) (maxEpisodes : Nat)
    (interrupt : Option Nat) : List DriverEv :=
  tryExceptKIFinally (loopTrace loopEvents maxEpisodes interrupt)
    [DriverEv.save]

/-- Commons `train()` (commons/run_expe.py lines 224-304): episode loop
inside try, `except KeyboardInterrupt: pass`, and a finally block that dumps
arrays, plots, closes the environment, saves the model and, for the STARCCM
game, finishes the CFD run. -/
def runExpeTrainTrace (loopEvents : Nat → List DriverEv) (maxEpisodes : Nat)
    (interrupt : Option Nat) (starccm : Bool) : List DriverEv :=
  tryExceptKIFinally (loopTrace loopEvents maxEpisodes interrupt)
    ([DriverEv.printArrays, DriverEv.plotOutput, DriverEv.envClose,
      DriverEv.save] ++ if starccm then [DriverEv.finishCFD] else [])

/-- C8: on every exit path from the training loop — normal completion
(interrupt = none) or a user KeyboardInterrupt at any episode — both
training drivers still execute model.save() before exiting (best-effort
checkpoint in the finally block). -/
theorem c8_save_on_every_exit_path (loopEvents : Nat → List DriverEv)
    (maxEpisodes : Nat) (interrupt : Option Nat) (starccm : Bool) :
    DriverEv.save ∈ dqnTrainTrace loopEvents maxEpisodes interrupt ∧
    DriverEv.save ∈ runExpeTrainTrace loopEvents maxEpisodes interrupt starccm := by
  constructor
  · simp [dqnTrainTrace, tryExceptKIFinally]
  · simp [runExpeTrainTrace, tryExceptKIFinally]

/-- The two possible shapes of a sampled batch: a single sequence of
per-transition records, or five parallel field sequences. -/
inductive BatchShape (σ α : Type) where
  | records : List (Transition σ α) → BatchShape σ α
  | parallel : List σ → List α → List ℚ → List σ → List Bool → BatchShape σ α
deriving DecidableEq

/-- Whether a batch is in the parallel-sequences shape. -/
def BatchShape.isParallel {σ α : Type} : BatchShape σ α → Bool
  | .parallel _ _ _ _ _ => true
  | .records _ => false

/-- What `memory.sample(batch_size)` hands back to its callers: a single
sequence of per-transition records — spec section 8 ("returns exactly k
transitions") and all three callers, which transpose it with
`zip(*transitions)` (TD3/model.py line 42, SAC/model.py, DQN/model.py line
121). -/
def sampleBatch {σ α : Type} (b : ReplayMemory (Transition σ α))
    (idxs : List Nat) : BatchShape σ α :=
  .records (b.sample idxs)

/-- The caller-side transpose `list(zip(*transitions))` producing the five
parallel sequences (states, actions, rewards, next_states, dones). -/
def transposeBatch {σ α : Type} (ts : List (Transition σ α)) :
    List σ × List α × List ℚ × List σ × List Bool :=
  (ts.map Transition.state, ts.map Transition.action,
   ts.map Transition.reward, ts.map Transition.next_state,
   ts.map Transition.done)

/-- Rebuild per-transition records from five parallel sequences. -/
def recombineBatch {σ α : Type} :
    List σ → List α → List ℚ → List σ → List Bool → List (Transition σ α)
  | s :: ss, a :: as, r :: rs, n :: ns, d :: ds =>
      ⟨s, a, r, n, d⟩ :: recombineBatch ss as rs ns ds
  | _, _, _, _, _ => []

theorem recombine_transpose {σ α : Type} (ts : List (Transition σ α)) :
    recombineBatch (ts.map Transition.state) (ts.map Transition.action)
      (ts.map Transition.reward) (ts.map Transition.next_state)
      (ts.map Transition.done) = ts := by
  induction ts with
  | nil => rfl
  | cons t ts ih => simp [recombineBatch, ih]

/-- A concrete two-entry buffer used for the C7 counterexample/witness. -/
def bufW : ReplayMemory (Transition ℚ ℚ) :=
  ⟨2, [⟨1, 2, 3, 4, false⟩, ⟨5, 6, 7, 8, true⟩], 0⟩

/-- Counterexample to C7: at a concrete filled buffer, the batch handed back
by sample is the single sequence of per-transition records — not the
parallel sequences the spec describes — which is why every caller
transposes it. -/
theorem c7_counterexample_sample_returns_records :
    (sampleBatch bufW [0, 1]).isParallel = false ∧
    sampleBatch bufW [0, 1]
      = BatchShape.records [⟨1, 2, 3, 4, false⟩, ⟨5, 6, 7, 8, true⟩] :=
  ⟨rfl, by decide⟩

/-- C7 (amended): sample(batch_size) returns a single sequence of
per-transition records; each caller transposes it (`zip(*transitions)`)
into the parallel sequences (states, actions, rewards, next_states, dones)
for batched numeric consumption — a lossless transpose yielding k-length
parallel sequences. -/
theorem c7_sample_records_caller_transposes {σ α : Type}
    (b : ReplayMemory (Transition σ α)) (idxs : List Nat)
    (h : ∀ i ∈ idxs, i < b.size) :
    (sampleBatch b idxs).isParallel = false ∧
    (transposeBatch (b.sample idxs)).1.length = idxs.length ∧
    recombineBatch (transposeBatch (b.sample idxs)).1
      (transposeBatch (b.sample idxs)).2.1
      (transposeBatch (b.sample idxs)).2.2.1
      (transposeBatch (b.sample idxs)).2.2.2.1
      (transposeBatch (b.sample idxs)).2.2.2.2
      = b.sample idxs := by
  refine ⟨rfl, ?_, ?_⟩
  · simp [transposeBatch, ReplayMemory.sample_length b idxs h]
  · exact recombine_transpose (b.sample idxs)

/-- Closed witness for the amended C7 at the concrete two-entry buffer. -/
theorem c7_sample_records_caller_transposes_witness :
    (sampleBatch bufW [0, 1]).isParallel = false ∧
    (transposeBatch (bufW.sample [0, 1])).1.length = 2 ∧
    recombineBatch (transposeBatch (bufW.sample [0, 1])).1
      (transposeBatch (bufW.sample [0, 1])).2.1
      (transposeBatch (bufW.sample [0, 1])).2.2.1
      (transposeBatch (bufW.sample [0, 1])).2.2.2.1
      (transposeBatch (bufW.sample [0, 1])).2.2.2.2
      = bufW.sample [0, 1] :=
  c7_sample_records_caller_transposes bufW [0, 1] (by decide)
